import Mathlib

/-!
Verification development for the analytical core of the ai-search-intelligence
repository: the gap-identification engine
(src/ai_search_intelligence/analysis/gap_identification.py) and the
pattern-recognition engine
(src/ai_search_intelligence/analysis/pattern_recognition.py).

Modelling conventions:
* Python floats are modelled as exact rationals (ℚ).  Every numeric constant of
  the engines is a small decimal, and every comparison that a claim exercises
  is float-exact, so the rational semantics coincides with the float semantics
  on all inputs used here.
* Citation dictionaries are modelled as a record with every column present
  (the data-model invariant of the spec); pandas column-existence checks are
  therefore always true and are dropped.
* pandas constructs are translated by their list semantics:
  value_counts → counts over first-occurrence-deduplicated keys,
  unique → first-occurrence deduplication, groupby → per-key filtering.
  Where pandas iterates groups in sorted key order we sort; no claim below
  depends on inter-group order.
* The sklearn vectorize-and-cluster call (TfidfVectorizer + KMeans) is an
  external library routine; it is modelled as an abstract function
  `cluster seed corpus k` in the analyzer environment that may fail
  (`Except`), exactly as the Python call may raise inside its try/except.
  The engines invoke it with the fixed seed 42 (random_state=42).
* Python's salted per-process `hash` and `datetime.now()` are modelled as the
  environment fields `pyhash` and `today`.
* Output fields that are pure presentation (reasoning strings, example lists,
  topic/angle suggestion lists, characteristics maps, time ranges) are not
  modelled; no claim mentions them.
-/

/- Batteries marks the ℚ arithmetic operations irreducible, which blocks
`decide` on concrete rational computations; restore default transparency for
this file. -/
attribute [local semireducible] Rat.mul Rat.inv Rat.add Rat.sub Rat.ofScientific

/-! ### String helpers (ASCII models of the Python string operations used) -/

/-- ASCII lower-casing of one character (model of `str.lower` per character). -/
def lowerChar (c : Char) : Char :=
  if c.toNat ≥ 65 ∧ c.toNat ≤ 90 then Char.ofNat (c.toNat + 32) else c

/-- Model of Python `s.lower()` (ASCII range; the engines only compare ASCII
keyword constants). -/
def strLower (s : String) : String := String.mk (s.data.map lowerChar)

/-- Does the character list start with the given pattern list. -/
def charsStartWith : List Char → List Char → Bool
  | [], _ => true
  | _ :: _, [] => false
  | a :: as, b :: bs => a == b && charsStartWith as bs

/-- Model of Python `pat in hay` substring containment. -/
def strContainsSub (hay pat : String) : Bool :=
  hay.data.tails.any (fun t => charsStartWith pat.data t)

/-- Model of `any(word in s for word in words)`. -/
def containsAnyWord (s : String) (words : List String) : Bool :=
  words.any (fun w => strContainsSub s w)

/-- Accumulator-based splitter for `pyWords`. -/
def wordsAux : List Char → List Char → List String
  | [], acc => if acc.isEmpty then [] else [String.mk acc.reverse]
  | c :: cs, acc =>
    if c == ' ' then
      (if acc.isEmpty then wordsAux cs [] else String.mk acc.reverse :: wordsAux cs [])
    else wordsAux cs (c :: acc)

/-- Model of Python `s.split()`: whitespace-separated tokens, empties dropped
(space is the only whitespace appearing in the modelled data). -/
def pyWords (s : String) : List String := wordsAux s.data []

/-! ### List helpers -/

/-- First-occurrence deduplication: the model of `pandas.Series.unique` and of
dict-key insertion order. -/
def dedupFirst {α : Type} [DecidableEq α] : List α → List α
  | [] => []
  | a :: l => a :: (dedupFirst l).filter (fun y => y ≠ a)

/-- Arithmetic mean of a list of rationals (0 on the empty list, which every
use below guards against). -/
def listMean (l : List ℚ) : ℚ := l.sum / l.length

/-- Maximum of a list of naturals (0 on the empty list). -/
def listMaxNat (l : List ℕ) : ℕ := l.foldl max 0

/-- Minimum of a nonempty list of naturals (0 on the empty list). -/
def listMinNat : List ℕ → ℕ
  | [] => 0
  | a :: l => l.foldl min a

/-! ### Data model -/

/-- CitationRecord: the normalized unit of input data (spec §3).  All columns
are present; `created_at` is a point in time in seconds. -/
structure Citation where
  engine : String
  query : String
  url : String
  title : String
  snippet : String
  position : ℚ
  citation_type : String
  source_domain : String
  prominence_score : ℚ
  metadata : List (String × String)
  created_at : ℕ
deriving DecidableEq

/-- ContentGap: an identified content gap.  Presentation-only fields
(`suggested_topics`, `reasoning`, `related_queries`,
`content_angle_suggestions`) are not modelled. -/
structure ContentGap where
  gap_id : String
  query_text : String
  gap_type : String
  opportunity_score : ℚ
  suggested_content_type : String
  competing_domains : List String
  search_volume_estimate : ℤ
  difficulty_score : ℚ
  priority : String
  estimated_effort : String
  potential_impact : String
deriving DecidableEq

/-- CitationPattern: a discovered citation pattern.  Presentation-only fields
(`description`, `examples`, `characteristics`, `time_range`) are not
modelled. -/
structure CitationPattern where
  pattern_id : String
  pattern_type : String
  frequency : ℕ
  strength : ℚ
  engines : List String
  domains : List String
  content_types : List String
deriving DecidableEq

/-- Process-level context of an analyzer run: the salted string hash
(`hash`), the library clustering routine (TfidfVectorizer + KMeans as one
seeded function that may raise), and today's date string
(`datetime.now().strftime`). -/
structure AnalyzerEnv where
  pyhash : String → Int
  cluster : ℕ → List String → ℕ → Except String (List ℕ)
  today : String

/-! ### Gap identification engine: auxiliary heuristics -/

/-- Number of citation records whose `query` equals `q`
(`df['query'].value_counts().get(query, 0)`). -/
def query_citation_count (cits : List Citation) (q : String) : ℕ :=
  (cits.filter (fun c => c.query == q)).length

/-- Model of `_suggest_content_type_for_query`. -/
def suggest_content_type_for_query (query : String) : String :=
  let ql := strLower query
  if containsAnyWord ql ["how to", "how do", "tutorial", "guide", "step"] then
    "tutorial_guide"
  else if containsAnyWord ql ["what is", "definition", "meaning"] then
    "explainer_article"
  else if containsAnyWord ql ["best", "top", "review", "comparison", "vs"] then
    "comparison_review"
  else if containsAnyWord ql ["tool", "calculator", "generator"] then
    "interactive_tool"
  else if strContainsSub query "?" || containsAnyWord ql ["why", "when", "where"] then
    "faq_article"
  else
    "comprehensive_article"

/-- Model of `_estimate_search_volume` (`int()` of the scaled base volume). -/
def estimate_search_volume (query : String) : ℤ :=
  let ql := strLower query
  let base : ℚ := 1000
  let v : ℚ :=
    if containsAnyWord ql ["how to", "tutorial"] then base * 2
    else if containsAnyWord ql ["best", "top", "review"] then base * 1.5
    else if 6 < (pyWords query).length then base * 0.3
    else if (pyWords query).length ≤ 2 then base * 3
    else base
  v.floor

/-- Model of `_estimate_content_effort`. -/
def estimate_content_effort (query : String) : String :=
  let ql := strLower query
  if containsAnyWord ql ["api", "code", "programming", "technical", "advanced", "enterprise"] then
    "high"
  else if containsAnyWord ql ["best", "comparison", "review", "vs", "analysis"] then
    "high"
  else if containsAnyWord ql ["how to", "tutorial", "guide", "step"] then
    "medium"
  else if containsAnyWord ql ["what is", "definition", "meaning"] then
    "low"
  else
    "medium"

/-- Distinct source domains of the records matching `q`, in first-occurrence
order (`df[df['query'] == query]['source_domain'].unique().tolist()`). -/
def competing_domains_for (cits : List Citation) (q : String) : List String :=
  dedupFirst ((cits.filter (fun c => c.query == q)).map (fun c => c.source_domain))

/-! ### Gap identification engine: the five gap finders -/

/-- Loop body of `_find_no_citation_gaps` for one tracked query. -/
def no_citation_gap_for (env : AnalyzerEnv) (cits : List Citation) (q : String) :
    List ContentGap :=
  let n := query_citation_count cits q
  if n = 0 then
    [{ gap_id := "no_citations_" ++ toString (env.pyhash q)
       query_text := q
       gap_type := "no_citations"
       opportunity_score := 0.8
       suggested_content_type := suggest_content_type_for_query q
       competing_domains := []
       search_volume_estimate := estimate_search_volume q
       difficulty_score := 0.2
       priority := "high"
       estimated_effort := estimate_content_effort q
       potential_impact := "high" }]
  else if n ≤ 2 then
    [{ gap_id := "weak_citations_" ++ toString (env.pyhash q)
       query_text := q
       gap_type := "weak_citations"
       opportunity_score := 0.7
       suggested_content_type := suggest_content_type_for_query q
       competing_domains := competing_domains_for cits q
       search_volume_estimate := estimate_search_volume q
       difficulty_score := 0.3
       priority := "high"
       estimated_effort := estimate_content_effort q
       potential_impact := "high" }]
  else []

/-- Model of `_find_no_citation_gaps`: per tracked query, 0 matching records
gives a `no_citations` gap and 1–2 matching records a `weak_citations` gap. -/
def find_no_citation_gaps (env : AnalyzerEnv) (cits : List Citation)
    (tracked : List String) : List ContentGap :=
  tracked.flatMap (no_citation_gap_for env cits)

/-- String order used for the sorted group keys of `df.groupby`. -/
def strLeB (a b : String) : Prop := a ≤ b

instance : DecidableRel strLeB := fun a b => inferInstanceAs (Decidable (a ≤ b))

/-- Mean prominence score of the records matching `q`. -/
def mean_prominence (cits : List Citation) (q : String) : ℚ :=
  listMean ((cits.filter (fun c => c.query == q)).map (fun c => c.prominence_score))

/-- Loop body of `_find_weak_citation_gaps` for one query group. -/
def weak_citation_gap_for (env : AnalyzerEnv) (cits : List Citation) (q : String) :
    List ContentGap :=
  let group := cits.filter (fun c => c.query == q)
  let m := mean_prominence cits q
  if m < 0.5 ∧ 2 ≤ group.length then
    [{ gap_id := "low_prominence_" ++ toString (env.pyhash q)
       query_text := q
       gap_type := "weak_citations"
       opportunity_score := 0.6 + (0.5 - m)
       suggested_content_type := suggest_content_type_for_query q
       competing_domains := competing_domains_for cits q
       search_volume_estimate := estimate_search_volume q
       difficulty_score := 0.4 + m * 0.4
       priority := "medium"
       estimated_effort := estimate_content_effort q
       potential_impact := "medium" }]
  else []

/-- Model of `_find_weak_citation_gaps`: queries whose mean prominence is
below 0.5 over at least 2 records (groupby iterates keys in sorted order). -/
def find_weak_citation_gaps (env : AnalyzerEnv) (cits : List Citation) :
    List ContentGap :=
  (List.insertionSort strLeB (dedupFirst (cits.map (fun c => c.query)))).flatMap
    (weak_citation_gap_for env cits)

/-- Fraction of the records matching `q` whose domain is in the (lower-cased)
competitor set. -/
def competitor_share (cits : List Citation) (competitor_domains : List String)
    (q : String) : ℚ :=
  let qc := cits.filter (fun c => c.query == q)
  ((qc.filter (fun c => c.source_domain ∈ competitor_domains.map strLower)).length : ℚ)
    / (qc.length : ℚ)

/-- Loop body of `_find_competitor_dominated_gaps` for one query. -/
def competitor_gap_for (env : AnalyzerEnv) (cits : List Citation)
    (competitor_domains : List String) (q : String) : List ContentGap :=
  let qc := cits.filter (fun c => c.query == q)
  if qc.length < 3 then [] else
  let share := competitor_share cits competitor_domains q
  if 0.6 ≤ share then
      [{ gap_id := "competitor_dominated_" ++ toString (env.pyhash q)
         query_text := q
         gap_type := "competitor_dominated"
         opportunity_score := 0.5 - share * 0.2
         suggested_content_type := suggest_content_type_for_query q
         competing_domains := competing_domains_for cits q
         search_volume_estimate := estimate_search_volume q
         difficulty_score := 0.6 + share * 0.3
         priority := if 0.8 < share then "low" else "medium"
         estimated_effort := "high"
         potential_impact := if share < 0.8 then "high" else "medium" }]
  else []

/-- Model of `_find_competitor_dominated_gaps`. -/
def find_competitor_dominated_gaps (env : AnalyzerEnv) (cits : List Citation)
    (competitor_domains : List String) : List ContentGap :=
  if competitor_domains.isEmpty then [] else
  (dedupFirst (cits.map (fun c => c.query))).flatMap
    (competitor_gap_for env cits competitor_domains)

/-- Model of `_find_topic_cluster_gaps`.  The try/except around the whole body
is modelled by the `Except` result of the clustering routine: an error (or a
label list of the wrong length, which would raise `IndexError` inside the
`try`) contributes zero gaps. -/
def find_topic_cluster_gaps (env : AnalyzerEnv) (cits : List Citation)
    (tracked : List String) : List ContentGap :=
  if tracked.length < 10 then [] else
  let n := min 5 (tracked.length / 4)
  if n < 2 then [] else
  match env.cluster 42 tracked n with
  | Except.error _ => []
  | Except.ok labels =>
    if labels.length ≠ tracked.length then [] else
    (List.range n).flatMap (fun cid =>
      let cluster_queries := (tracked.zip labels).filterMap
        (fun p => if p.2 = cid then some p.1 else none)
      if cluster_queries.length < 2 then [] else
      let counts := cluster_queries.map (fun q => (q, query_citation_count cits q))
      let avg := listMean (counts.map (fun p => ((p.2 : ℕ) : ℚ)))
      counts.flatMap (fun p =>
        if (p.2 : ℚ) < avg * 0.5 ∧ p.2 < 3 then
          [{ gap_id := "topic_cluster_gap_" ++ toString cid ++ "_"
                 ++ toString (env.pyhash p.1)
             query_text := p.1
             gap_type := "topic_cluster_gap"
             opportunity_score := 0.6
             suggested_content_type := suggest_content_type_for_query p.1
             competing_domains := []
             search_volume_estimate := estimate_search_volume p.1
             difficulty_score := 0.4
             priority := "medium"
             estimated_effort := "medium"
             potential_impact := "medium" }]
        else []))

/-! ### Question-variation gaps -/

/-- Ordered question-type classification.  The Python word-boundary regexes
are modelled on the whitespace token list of the lower-cased query: a pair
pattern such as `\bhow\s+to\b` is two adjacent tokens, a single-word pattern
such as `\bwhy\b` is token membership. -/
def adjacent_pair (ws : List String) (a b : String) : Bool :=
  (ws.zip ws.tail).any (fun p => p.1 == a && p.2 == b)

/-- Model of the first-match-wins loop over `question_patterns` (Python dicts
iterate in insertion order). -/
def question_type (ql : String) : String :=
  let ws := pyWords ql
  if adjacent_pair ws "what" "is" then "what_is"
  else if adjacent_pair ws "how" "to" || adjacent_pair ws "how" "do"
      || adjacent_pair ws "how" "can" then "how_to"
  else if ws.contains "why" then "why"
  else if ws.contains "when" then "when"
  else if ws.contains "where" then "where"
  else if ws.contains "which" then "which"
  else if ws.contains "best" then "best"
  else if ws.contains "vs" || ws.contains "versus" then "vs_comparison"
  else "general"

/-- Stop words removed before forming a topic key. -/
def question_stop_words : List String :=
  ["what", "is", "how", "to", "do", "can", "why", "when", "where", "which",
   "the", "a", "an"]

/-- Topic key of a query: the first 3 content words of the lower-cased query,
or `none` when no content word remains. -/
def topic_of_query (q : String) : Option String :=
  let content_words := (pyWords (strLower q)).filter
    (fun w => ¬ question_stop_words.contains w)
  if content_words.isEmpty then none
  else some (" ".intercalate (content_words.take 3))

/-- Model of `_generate_question_variation`. -/
def generate_question_variation (topic qtype : String) : String :=
  if qtype = "what_is" then "What is " ++ topic ++ "?"
  else if qtype = "how_to" then "How to " ++ topic
  else if qtype = "best" then "Best " ++ topic
  else if qtype = "why" then "Why " ++ topic
  else if qtype = "when" then "When " ++ topic
  else if qtype = "where" then "Where " ++ topic
  else if qtype = "which" then "Which " ++ topic
  else if qtype = "vs_comparison" then topic ++ " vs alternatives"
  else topic

/-- Model of `_map_question_type_to_content`. -/
def map_question_type_to_content (qtype : String) : String :=
  if qtype = "what_is" then "explainer_article"
  else if qtype = "how_to" then "tutorial_guide"
  else if qtype = "best" then "comparison_review"
  else if qtype = "why" then "analytical_article"
  else if qtype = "when" then "timing_guide"
  else if qtype = "where" then "directory_article"
  else if qtype = "which" then "selection_guide"
  else if qtype = "vs_comparison" then "comparison_article"
  else "comprehensive_article"

/-- The (topic, question_type, query) triple of each tracked query that has a
topic key, in input order. -/
def topic_triples (tracked : List String) : List (String × String × String) :=
  tracked.filterMap (fun q =>
    let ql := strLower q
    match topic_of_query q with
    | none => none
    | some topic => some (topic, question_type ql, q))

/-- Loop body of `_find_question_variation_gaps` for one topic. -/
def question_gaps_for_topic (env : AnalyzerEnv) (cits : List Citation)
    (triples : List (String × String × String)) (topic : String) :
    List ContentGap :=
  let here := triples.filter (fun t => t.1 == topic)
  let qtypes := dedupFirst (here.map (fun t => t.2.1))
  if qtypes.length = 1 then
    let existing_queries := here.map (fun t => t.2.2)
    let total_citations :=
      (existing_queries.map (fun q => query_citation_count cits q)).sum
    (["what_is", "how_to", "best"].filter (fun t => ¬ qtypes.contains t)).map
      (fun missing =>
        { gap_id := "question_variation_" ++ missing ++ "_"
              ++ toString (env.pyhash topic)
          query_text := generate_question_variation topic missing
          gap_type := "question_variation"
          opportunity_score := 0.5 + ((min total_citations 10 : ℕ) : ℚ) * 0.03
          suggested_content_type := map_question_type_to_content missing
          competing_domains := []
          search_volume_estimate := max 100 ((total_citations : ℤ) * 50)
          difficulty_score := 0.3
          priority := "medium"
          estimated_effort := "medium"
          potential_impact := "medium" })
  else []

/-- Model of `_find_question_variation_gaps`.  The missing question types
`{what_is, how_to, best}` are iterated in this fixed order (Python iterates a
set difference, whose order is fixed per process; no claim depends on the
relative order of the at most three gaps of one topic). -/
def find_question_variation_gaps (env : AnalyzerEnv) (cits : List Citation)
    (tracked : List String) : List ContentGap :=
  (dedupFirst ((topic_triples tracked).map (fun t => t.1))).flatMap
    (question_gaps_for_topic env cits (topic_triples tracked))

/-! ### Scoring pass and the top-level gap entry point -/

/-- High-value question keywords of the scoring pass. -/
def high_value_words : List String := ["how to", "best", "guide", "tutorial"]

/-- Commercial-intent keywords of the scoring pass. -/
def commercial_words : List String := ["buy", "price", "cost", "review", "comparison"]

/-- Does the gap's query text contain a high-value keyword. -/
def has_high_value_kw (g : ContentGap) : Bool :=
  containsAnyWord (strLower g.query_text) high_value_words

/-- Does the gap's query text contain a commercial-intent keyword. -/
def has_commercial_kw (g : ContentGap) : Bool :=
  containsAnyWord (strLower g.query_text) commercial_words

/-- The per-gap adjustment of `_score_and_prioritize_gaps`: keyword boosts
(clamped at 1.0), commercial impact override, then priority recomputation from
the final score. -/
def adjust_gap (g : ContentGap) : ContentGap :=
  let s1 := if has_high_value_kw g
    then min 1 (g.opportunity_score + 0.1) else g.opportunity_score
  let s2 := if has_commercial_kw g then min 1 (s1 + 0.15) else s1
  let impact := if has_commercial_kw g then "high" else g.potential_impact
  let prio := if 0.8 ≤ s2 then "high" else if 0.5 ≤ s2 then "medium" else "low"
  { g with opportunity_score := s2, potential_impact := impact, priority := prio }

/-- Descending order on the final opportunity score. -/
def gapGE (a b : ContentGap) : Prop := b.opportunity_score ≤ a.opportunity_score

instance : DecidableRel gapGE :=
  fun a b => inferInstanceAs (Decidable (b.opportunity_score ≤ a.opportunity_score))

instance : IsTotal ContentGap gapGE := ⟨fun a b => le_total b.opportunity_score a.opportunity_score⟩

instance : IsTrans ContentGap gapGE := ⟨fun _ _ _ h1 h2 => le_trans h2 h1⟩

/-- Model of `_score_and_prioritize_gaps`: adjust every gap, then Python's
stable `list.sort(key=opportunity_score, reverse=True)`, modelled by the
(unique) stable descending sort. -/
def score_and_prioritize_gaps (gaps : List ContentGap) : List ContentGap :=
  if gaps.isEmpty then gaps else
  List.insertionSort gapGE (gaps.map adjust_gap)

/-- Model of `identify_content_gaps`: the guard on empty input, the five
finders in source order, then the scoring pass. -/
def identify_content_gaps (env : AnalyzerEnv) (citations : List Citation)
    (tracked_queries : List String) (competitor_domains : List String) :
    List ContentGap :=
  if citations.isEmpty || tracked_queries.isEmpty then [] else
  score_and_prioritize_gaps
    (find_no_citation_gaps env citations tracked_queries
      ++ find_weak_citation_gaps env citations
      ++ find_competitor_dominated_gaps env citations competitor_domains
      ++ find_topic_cluster_gaps env citations tracked_queries
      ++ find_question_variation_gaps env citations tracked_queries)

/-! ### Pattern recognition engine -/

/-- Distinct engines of the record set, first-occurrence order
(`df['engine'].unique().tolist()`). -/
def unique_engines (cits : List Citation) : List String :=
  dedupFirst (cits.map (fun c => c.engine))

/-- Distinct source domains, first-occurrence order. -/
def unique_domains (cits : List Citation) : List String :=
  dedupFirst (cits.map (fun c => c.source_domain))

/-- Distinct citation types, first-occurrence order. -/
def unique_citation_types (cits : List Citation) : List String :=
  dedupFirst (cits.map (fun c => c.citation_type))

/-- Records of one source domain. -/
def domain_records (cits : List Citation) (d : String) : List Citation :=
  cits.filter (fun c => c.source_domain == d)

/-- Domains with at least `min_pattern_frequency = 3` citations
(`domain_counts[domain_counts >= 3]`), in first-occurrence order. -/
def high_freq_domains (cits : List Citation) : List String :=
  (unique_domains cits).filter (fun d => 3 ≤ (domain_records cits d).length)

/-- Domains kept by the prominence analysis: mean prominence at least 0.7
over at least 2 records. -/
def high_prominence_domains (cits : List Citation) : List String :=
  (unique_domains cits).filter (fun d =>
    2 ≤ (domain_records cits d).length ∧
      0.7 ≤ listMean ((domain_records cits d).map (fun c => c.prominence_score)))

/-- Model of `_analyze_domain_patterns`: the domain-frequency pattern followed
by the domain-prominence pattern. -/
def analyze_domain_patterns (env : AnalyzerEnv) (cits : List Citation) :
    List CitationPattern :=
  let hf := high_freq_domains cits
  let p1 : List CitationPattern :=
    if hf.isEmpty then [] else
    [{ pattern_id := "high_freq_domains_" ++ env.today
       pattern_type := "domain_frequency"
       frequency := hf.length
       strength := min 1 ((hf.length : ℚ) / 10)
       engines := unique_engines cits
       domains := hf
       content_types := unique_citation_types cits }]
  let hp := high_prominence_domains cits
  let p2 : List CitationPattern :=
    if hp.isEmpty then [] else
    [{ pattern_id := "high_prominence_domains_" ++ env.today
       pattern_type := "domain_prominence"
       frequency := hp.length
       strength := listMean (hp.map (fun d =>
         listMean ((domain_records cits d).map (fun c => c.prominence_score))))
       engines := unique_engines cits
       domains := hp
       content_types := unique_citation_types cits }]
  p1 ++ p2

/-- Records of one citation type. -/
def type_records (cits : List Citation) (t : String) : List Citation :=
  cits.filter (fun c => c.citation_type == t)

/-- Citation types kept by the content-type analysis: mean prominence at
least 0.6 over at least 3 records. -/
def high_performing_types (cits : List Citation) : List String :=
  (unique_citation_types cits).filter (fun t =>
    3 ≤ (type_records cits t).length ∧
      0.6 ≤ listMean ((type_records cits t).map (fun c => c.prominence_score)))

/-- Model of `_analyze_content_type_patterns`. -/
def analyze_content_type_patterns (env : AnalyzerEnv) (cits : List Citation) :
    List CitationPattern :=
  let ht := high_performing_types cits
  if ht.isEmpty then [] else
  [{ pattern_id := "high_performing_types_" ++ env.today
     pattern_type := "content_type_performance"
     frequency := (ht.map (fun t => (type_records cits t).length)).sum
     strength := listMean (ht.map (fun t =>
       listMean ((type_records cits t).map (fun c => c.prominence_score))))
     engines := unique_engines cits
     domains := unique_domains cits
     content_types := ht }]

/-- Records with `position <= 3` (`top_positions`). -/
def top_positions (cits : List Citation) : List Citation :=
  cits.filter (fun c => c.position ≤ 3)

/-- Records of one (domain, citation_type) group inside the top positions. -/
def pos_group (cits : List Citation) (k : String × String) : List Citation :=
  (top_positions cits).filter
    (fun c => c.source_domain == k.1 && c.citation_type == k.2)

/-- (domain, citation_type) groups of the top positions with at least 2
occurrences (`consistent_top`). -/
def pos_qual_keys (cits : List Citation) : List (String × String) :=
  (dedupFirst ((top_positions cits).map
      (fun c => (c.source_domain, c.citation_type)))).filter
    (fun k => 2 ≤ (pos_group cits k).length)

/-- Mean positions of the qualifying (domain, citation_type) groups. -/
def pos_group_means (cits : List Citation) : List ℚ :=
  (pos_qual_keys cits).map (fun k =>
    listMean ((pos_group cits k).map (fun c => c.position)))

/-- Model of `_analyze_position_patterns`: requires at least
`min_pattern_frequency = 3` records in the top positions, then at least one
group with 2 occurrences; strength is `1 - mean(group means)/10`. -/
def analyze_position_patterns (env : AnalyzerEnv) (cits : List Citation) :
    List CitationPattern :=
  if (top_positions cits).length < 3 then [] else
  let qual := pos_qual_keys cits
  if qual.isEmpty then [] else
  [{ pattern_id := "top_position_pattern_" ++ env.today
     pattern_type := "position_consistency"
     frequency := (qual.map (fun k => (pos_group cits k).length)).sum
     strength := 1 - listMean (pos_group_means cits) / 10
     engines := unique_engines cits
     domains := unique_domains cits
     content_types := unique_citation_types cits }]

/-- Calendar day of an epoch-seconds timestamp (`dt.date` grouping). -/
def date_of (t : ℕ) : ℕ := t / 86400

/-- Weekday name of an epoch-seconds timestamp (day 0 = Thursday 1970-01-01;
`dt.day_name()`). -/
def weekday_name (t : ℕ) : String :=
  (["Monday", "Tuesday", "Wednesday", "Thursday", "Friday", "Saturday",
    "Sunday"].getD ((date_of t + 3) % 7) "Monday")

/-- Distinct calendar days present, first-occurrence order. -/
def distinct_dates (cits : List Citation) : List ℕ :=
  dedupFirst (cits.map (fun c => date_of c.created_at))

/-- Citation count of one calendar day. -/
def day_count (cits : List Citation) (d : ℕ) : ℕ :=
  (cits.filter (fun c => date_of c.created_at == d)).length

/-- Days whose count exceeds 1.5 times the mean daily count
(`high_activity_days`). -/
def high_activity_days (cits : List Citation) : List ℕ :=
  let avg := listMean ((distinct_dates cits).map (fun d => (day_count cits d : ℚ)))
  (distinct_dates cits).filter (fun d => avg * 1.5 < (day_count cits d : ℚ))

/-- Distinct weekday names present, first-occurrence order. -/
def weekday_names_present (cits : List Citation) : List String :=
  dedupFirst (cits.map (fun c => weekday_name c.created_at))

/-- Citation count of one weekday name. -/
def weekday_count (cits : List Citation) (w : String) : ℕ :=
  (cits.filter (fun c => weekday_name c.created_at == w)).length

/-- The per-weekday counts. -/
def weekday_counts (cits : List Citation) : List ℕ :=
  (weekday_names_present cits).map (fun w => weekday_count cits w)

/-- Model of `_analyze_temporal_patterns`: the daily-spike pattern (at least
7 distinct days, at least 2 high-activity days) followed by the weekly
variation pattern (max/min weekday ratio above 1.5). -/
def analyze_temporal_patterns (env : AnalyzerEnv) (cits : List Citation) :
    List CitationPattern :=
  let spikes : List CitationPattern :=
    if (distinct_dates cits).length < 7 then [] else
    let high := high_activity_days cits
    if high.length < 2 then [] else
    [{ pattern_id := "high_activity_days_" ++ env.today
       pattern_type := "temporal_spikes"
       frequency := high.length
       strength := min 1 ((high.length : ℚ) / ((distinct_dates cits).length : ℚ))
       engines := unique_engines cits
       domains := unique_domains cits
       content_types := unique_citation_types cits }]
  let weekly : List CitationPattern :=
    if (weekday_names_present cits).isEmpty then [] else
    let wc := weekday_counts cits
    let mx := (listMaxNat wc : ℚ)
    let mn := (listMinNat wc : ℚ)
    if 1.5 < mx / mn then
      [{ pattern_id := "weekly_pattern_" ++ env.today
         pattern_type := "weekly_variation"
         frequency := cits.length
         strength := min 1 ((mx - mn) / listMean (wc.map (fun n => ((n : ℕ) : ℚ))))
         engines := unique_engines cits
         domains := unique_domains cits
         content_types := unique_citation_types cits }]
    else []
  spikes ++ weekly

/-- Records of one engine. -/
def engine_records (cits : List Citation) (e : String) : List Citation :=
  cits.filter (fun c => c.engine == e)

/-- Count of the most common citation type within one engine's records
(`type_prefs.iloc[0]`). -/
def dominant_type_count (cits : List Citation) (e : String) : ℕ :=
  listMaxNat ((unique_citation_types (engine_records cits e)).map
    (fun t => (type_records (engine_records cits e) t).length))

/-- The first citation type (in first-occurrence order) reaching the dominant
count (`type_prefs.idxmax()`; pandas tie order is not observable in any claim
below). -/
def dominant_type (cits : List Citation) (e : String) : String :=
  ((unique_citation_types (engine_records cits e)).filter
    (fun t => (type_records (engine_records cits e) t).length
      = dominant_type_count cits e)).headD ""

/-- Model of `_analyze_engine_patterns`: one pattern per engine whose most
common citation type covers more than 60% of the engine's records. -/
def analyze_engine_patterns (env : AnalyzerEnv) (cits : List Citation) :
    List CitationPattern :=
  (unique_engines cits).flatMap (fun e =>
    let recs := engine_records cits e
    let dom := dominant_type_count cits e
    if 0.6 < (dom : ℚ) / (recs.length : ℚ) then
      [{ pattern_id := "engine_preference_" ++ e ++ "_" ++ env.today
         pattern_type := "engine_content_preference"
         frequency := dom
         strength := (dom : ℚ) / (recs.length : ℚ)
         engines := [e]
         domains := unique_domains recs
         content_types := [dominant_type cits e] }]
    else [])

/-- The "key:value" tokens of all scalar metadata entries. -/
def metadata_tokens (cits : List Citation) : List String :=
  cits.flatMap (fun c => c.metadata.map (fun kv => kv.1 ++ ":" ++ kv.2))

/-- Distinct metadata tokens occurring at least `min_pattern_frequency = 3`
times. -/
def frequent_features (cits : List Citation) : List String :=
  (dedupFirst (metadata_tokens cits)).filter
    (fun f => 3 ≤ (metadata_tokens cits).count f)

/-- Model of `_analyze_content_feature_patterns`. -/
def analyze_content_feature_patterns (env : AnalyzerEnv) (cits : List Citation) :
    List CitationPattern :=
  if cits.isEmpty then [] else
  let ff := frequent_features cits
  if ff.isEmpty then [] else
  [{ pattern_id := "metadata_patterns_" ++ env.today
     pattern_type := "content_features"
     frequency := (ff.map (fun f => (metadata_tokens cits).count f)).sum
     strength := (ff.length : ℚ)
       / (max (dedupFirst (metadata_tokens cits)).length 1 : ℚ)
     engines := unique_engines cits
     domains := unique_domains cits
     content_types := unique_citation_types cits }]

/-- Descending order on the count component, used for
`value_counts().head(3)`. -/
def cntGE (p q : String × ℕ) : Prop := q.2 ≤ p.2

instance : DecidableRel cntGE := fun p q => inferInstanceAs (Decidable (q.2 ≤ p.2))

/-- The top `k` strings by multiplicity (stable on ties). -/
def top_by_count (l : List String) (k : ℕ) : List String :=
  ((List.insertionSort cntGE ((dedupFirst l).map (fun d => (d, l.count d)))).take
    k).map (fun p => p.1)

/-- Model of `_analyze_query_similarity_patterns`.  The try/except is modelled
by the `Except` result of the clustering routine, as in
`find_topic_cluster_gaps`. -/
def analyze_query_similarity_patterns (env : AnalyzerEnv) (cits : List Citation) :
    List CitationPattern :=
  if cits.length < 10 then [] else
  let n := min 5 (cits.length / 3)
  if n < 2 then [] else
  match env.cluster 42 (cits.map (fun c => c.query)) n with
  | Except.error _ => []
  | Except.ok labels =>
    if labels.length ≠ cits.length then [] else
    (List.range n).flatMap (fun cid =>
      let cluster_data := (cits.zip labels).filterMap
        (fun p => if p.2 = cid then some p.1 else none)
      if cluster_data.length < 3 then [] else
      [{ pattern_id := "query_cluster_" ++ toString cid ++ "_" ++ env.today
         pattern_type := "query_similarity"
         frequency := cluster_data.length
         strength := (cluster_data.length : ℚ) / (cits.length : ℚ)
         engines := unique_engines cluster_data
         domains := top_by_count (cluster_data.map (fun c => c.source_domain)) 3
         content_types := unique_citation_types cluster_data }])

/-- Model of `analyze_citation_patterns`: the guard on empty input and the
seven sub-scans in source order. -/
def analyze_citation_patterns (env : AnalyzerEnv) (citations : List Citation) :
    List CitationPattern :=
  if citations.isEmpty then [] else
  analyze_domain_patterns env citations
    ++ analyze_content_type_patterns env citations
    ++ analyze_position_patterns env citations
    ++ analyze_temporal_patterns env citations
    ++ analyze_engine_patterns env citations
    ++ analyze_content_feature_patterns env citations
    ++ analyze_query_similarity_patterns env citations

/-! ### Concrete inputs used by witnesses and counterexamples -/

/-- A fixed process context for concrete runs: constant hash, a clustering
routine that always fails (as sklearn does on degenerate input), a fixed
date. -/
def witEnv : AnalyzerEnv :=
  ⟨fun _ => 0, fun _ _ _ => Except.error "clustering unavailable", "20240101"⟩

/-- Record constructor for concrete runs. -/
def mkCit (q dom : String) (prom pos : ℚ) : Citation :=
  { engine := "google", query := q, url := "", title := "", snippet := ""
    position := pos, citation_type := "organic", source_domain := dom
    prominence_score := prom, metadata := [], created_at := 0 }

/-- Two zero-prominence citations of the query "zzz". -/
def citsZ : List Citation := [mkCit "zzz" "a.com" 0 1, mkCit "zzz" "b.com" 0 2]

/-- Five citations of one query, four on the competitor domain (share exactly
0.8). -/
def citsShare : List Citation :=
  [mkCit "q" "comp.com" 0.9 1, mkCit "q" "comp.com" 0.9 2,
   mkCit "q" "comp.com" 0.9 3, mkCit "q" "comp.com" 0.9 4,
   mkCit "q" "other.com" 0.9 5]

/-- Three citations of one query, all on the competitor domain. -/
def citsAllComp : List Citation :=
  [mkCit "qq" "comp.com" 0.9 1, mkCit "qq" "comp.com" 0.9 2,
   mkCit "qq" "comp.com" 0.9 3]

/-- Domain "x.com" appears in 4 records, no other domain reaches 3. -/
def citsX : List Citation :=
  [mkCit "a" "x.com" 0.1 1, mkCit "b" "x.com" 0.1 2, mkCit "c" "x.com" 0.1 3,
   mkCit "d" "x.com" 0.1 4, mkCit "e" "y.com" 0.1 5]

/-- Two top-position records of one (domain, citation_type) group: fewer than
`min_pattern_frequency` records at position at most 3. -/
def citsPos2 : List Citation := [mkCit "a" "a.com" 0.5 1, mkCit "b" "a.com" 0.5 2]

/-- Three top-position records, one group with two occurrences. -/
def citsPos3 : List Citation :=
  [mkCit "a" "a.com" 0.5 1, mkCit "b" "a.com" 0.5 2, mkCit "c" "b.com" 0.5 3]

/-- One citation whose query matches no tracked query. -/
def citsOther : List Citation := [mkCit "other" "a.com" 0.9 1]

/-- A keyword-free gap used by the scoring-pass witness. -/
def gapW1 : ContentGap :=
  { gap_id := "w1", query_text := "zzz", gap_type := "t"
    opportunity_score := 0.5, suggested_content_type := ""
    competing_domains := [], search_volume_estimate := 0
    difficulty_score := 0, priority := "low", estimated_effort := "low"
    potential_impact := "low" }

/-- A second gap with the same score. -/
def gapW2 : ContentGap := { gapW1 with gap_id := "w2" }

/-- Environment A of the determinism witness: seeds other than 42 fail. -/
def envA : AnalyzerEnv :=
  ⟨fun _ => 7,
   fun s qs _ => if s = 42 then Except.ok (qs.map (fun _ => 0))
     else Except.error "unseeded",
   "20240101"⟩

/-- Environment B: agrees with A at seed 42 and on the hash, differs
elsewhere. -/
def envB : AnalyzerEnv :=
  ⟨fun _ => 7,
   fun s qs _ => if s = 42 then Except.ok (qs.map (fun _ => 0))
     else Except.ok [],
   "20240102"⟩

/-- Ten identical tracked queries: enough to reach the clustering call. -/
def trackedTen : List String := List.replicate 10 "alpha"

/-! ### Helper lemmas -/

theorem mem_dedupFirst {α : Type} [DecidableEq α] {x : α} {l : List α} :
    x ∈ dedupFirst l ↔ x ∈ l := by
  induction l with
  | nil => simp [dedupFirst]
  | cons a l ih =>
    by_cases hxa : x = a
    · simp [dedupFirst, hxa]
    · simp [dedupFirst, hxa, List.mem_filter, ih]

theorem nodup_dedupFirst {α : Type} [DecidableEq α] (l : List α) :
    (dedupFirst l).Nodup := by
  induction l with
  | nil => simp [dedupFirst]
  | cons a l ih =>
    refine List.nodup_cons.mpr ⟨fun h => ?_, ih.filter _⟩
    have := (List.mem_filter.mp h).2
    simp at this

theorem listMean_nonneg {l : List ℚ} (h : ∀ x ∈ l, 0 ≤ x) : 0 ≤ listMean l :=
  div_nonneg (List.sum_nonneg h) (Nat.cast_nonneg l.length)

theorem listMean_le {l : List ℚ} {b : ℚ} (hl : l ≠ []) (h : ∀ x ∈ l, x ≤ b) :
    listMean l ≤ b := by
  have hlen : (0 : ℚ) < l.length := by
    exact_mod_cast List.length_pos.mpr hl
  rw [listMean, div_le_iff₀ hlen]
  calc l.sum ≤ l.length • b := List.sum_le_card_nsmul l b h
    _ = b * l.length := by rw [nsmul_eq_mul]; ring

theorem le_listMean {l : List ℚ} {a : ℚ} (hl : l ≠ []) (h : ∀ x ∈ l, a ≤ x) :
    a ≤ listMean l := by
  have hlen : (0 : ℚ) < l.length := by
    exact_mod_cast List.length_pos.mpr hl
  rw [listMean, le_div_iff₀ hlen]
  calc a * l.length = l.length • a := by rw [nsmul_eq_mul]; ring
    _ ≤ l.sum := List.card_nsmul_le_sum l a h

theorem foldl_max_le {b : ℕ} :
    ∀ (l : List ℕ) (acc : ℕ), acc ≤ b → (∀ x ∈ l, x ≤ b) → l.foldl max acc ≤ b
  | [], _, hacc, _ => hacc
  | x :: xs, acc, hacc, h =>
    foldl_max_le xs (max acc x) (max_le hacc (h x (List.mem_cons_self x xs)))
      (fun y hy => h y (List.mem_cons_of_mem x hy))

theorem listMaxNat_le {l : List ℕ} {b : ℕ} (h : ∀ x ∈ l, x ≤ b) :
    listMaxNat l ≤ b := foldl_max_le l 0 (Nat.zero_le b) h

theorem le_foldl_max : ∀ (l : List ℕ) (acc : ℕ), acc ≤ l.foldl max acc
  | [], acc => le_refl acc
  | x :: xs, acc => le_trans (le_max_left acc x) (le_foldl_max xs (max acc x))

theorem mem_le_foldl_max {x : ℕ} :
    ∀ (l : List ℕ) (acc : ℕ), x ∈ l → x ≤ l.foldl max acc
  | [], _, hx => absurd hx (List.not_mem_nil x)
  | y :: ys, acc, hx => by
    rcases List.mem_cons.mp hx with rfl | h
    · exact le_trans (le_max_right acc x) (le_foldl_max ys (max acc x))
    · exact mem_le_foldl_max ys (max acc y) h

theorem le_listMaxNat {l : List ℕ} {x : ℕ} (hx : x ∈ l) : x ≤ listMaxNat l :=
  mem_le_foldl_max l 0 hx

theorem foldl_min_le_acc : ∀ (l : List ℕ) (acc : ℕ), l.foldl min acc ≤ acc
  | [], acc => le_refl acc
  | x :: xs, acc => le_trans (foldl_min_le_acc xs (min acc x)) (min_le_left acc x)

theorem mem_foldl_min_le {x : ℕ} :
    ∀ (l : List ℕ) (acc : ℕ), x ∈ l → l.foldl min acc ≤ x
  | [], _, hx => absurd hx (List.not_mem_nil x)
  | y :: ys, acc, hx => by
    rcases List.mem_cons.mp hx with rfl | h
    · exact le_trans (foldl_min_le_acc ys (min acc x)) (min_le_right acc x)
    · exact mem_foldl_min_le ys (min acc y) h

theorem listMinNat_le {l : List ℕ} {x : ℕ} (hx : x ∈ l) : listMinNat l ≤ x := by
  match l, hx with
  | a :: rest, hx =>
    rcases List.mem_cons.mp hx with rfl | h
    · exact foldl_min_le_acc rest x
    · exact mem_foldl_min_le rest a h

/-! ### Claim C9: the domain-frequency pattern -/

/-- C9: for every citation list, the domain-frequency sub-scan emits one
aggregate pattern exactly when at least one source_domain has count ≥ 3, with
`frequency` equal to the number of qualifying domains and
`strength = min 1 (number_of_qualifying_domains / 10)`. -/
theorem claim_C9_domain_frequency (env : AnalyzerEnv) (cits : List Citation) :
    (((analyze_domain_patterns env cits).filter
        (fun p => p.pattern_type == "domain_frequency")).length
      = if high_freq_domains cits = [] then 0 else 1)
    ∧ (high_freq_domains cits ≠ [] ↔
        ∃ d, d ∈ cits.map (fun c => c.source_domain)
          ∧ 3 ≤ (domain_records cits d).length)
    ∧ (∀ p ∈ analyze_domain_patterns env cits,
        p.pattern_type = "domain_frequency" →
          p.frequency = (high_freq_domains cits).length
          ∧ p.strength = min 1 (((high_freq_domains cits).length : ℚ) / 10)) := by
  refine ⟨?_, ?_, ?_⟩
  · simp only [analyze_domain_patterns, List.filter_append, List.length_append]
    by_cases h1 : (high_freq_domains cits).isEmpty <;>
      by_cases h2 : (high_prominence_domains cits).isEmpty <;>
        simp_all [List.isEmpty_iff, List.filter_cons]
  · constructor
    · intro h
      rcases List.exists_mem_of_ne_nil _ h with ⟨d, hd⟩
      exact ⟨d, mem_dedupFirst.mp (List.mem_filter.mp hd).1,
        by simpa using (List.mem_filter.mp hd).2⟩
    · rintro ⟨d, hd, hcount⟩ h
      have hmem : d ∈ high_freq_domains cits :=
        List.mem_filter.mpr ⟨mem_dedupFirst.mpr hd, by simpa using hcount⟩
      simp [h] at hmem
  · intro p hp htype
    simp only [analyze_domain_patterns, List.mem_append] at hp
    rcases hp with hp | hp
    · by_cases h1 : (high_freq_domains cits).isEmpty
      · simp [h1] at hp
      · rw [if_neg (by simpa using h1)] at hp
        simp only [List.mem_singleton] at hp
        subst hp
        exact ⟨rfl, rfl⟩
    · by_cases h2 : (high_prominence_domains cits).isEmpty
      · simp [h2] at hp
      · rw [if_neg (by simpa using h2)] at hp
        simp only [List.mem_singleton] at hp
        subst hp
        simp at htype

/-- Witness for C9 at the scenario of the spec: "x.com" appears in 4 records,
no other domain reaches 3, so the emitted pattern has frequency 1 and
strength 0.1. -/
theorem claim_C9_witness :
    (((analyze_domain_patterns witEnv citsX).filter
        (fun p => p.pattern_type == "domain_frequency")).length = 1)
    ∧ (∀ p ∈ analyze_domain_patterns witEnv citsX,
        p.pattern_type = "domain_frequency" →
          p.frequency = 1 ∧ p.strength = 1/10) := by
  have h := claim_C9_domain_frequency witEnv citsX
  constructor
  · rw [h.1]
    decide
  · intro p hp htype
    have h3 := h.2.2 p hp htype
    refine ⟨?_, ?_⟩
    · rw [h3.1]; decide
    · rw [h3.2]; decide

/-! ### Claim C6: the position-consistency pattern -/

/-- C6 (amended): whenever at least 3 records have position ≤ 3 and some
(domain, citation_type) group among them has at least 2 records, the
position-consistency sub-scan emits exactly one pattern, with
`strength = 1 − (mean of the qualifying groups' mean positions / 10)`.
The claim as frozen omits the `min_pattern_frequency = 3` gate on the number
of top-position records. -/
theorem claim_C6_position_pattern (env : AnalyzerEnv) (cits : List Citation)
    (h3 : 3 ≤ (top_positions cits).length) (hq : pos_qual_keys cits ≠ []) :
    (analyze_position_patterns env cits).map (fun p => (p.pattern_type, p.strength))
      = [("position_consistency", 1 - listMean (pos_group_means cits) / 10)] := by
  simp only [analyze_position_patterns]
  rw [if_neg (by omega), if_neg (by simpa [List.isEmpty_iff] using hq)]
  rfl

/-- C6 counterexample: a (domain, citation_type) group with exactly 2 records
at position ≤ 3 and no other top-position records: the claim as stated
demands a pattern, but the sub-scan emits none (the 2 top-position records
are fewer than `min_pattern_frequency = 3`). -/
theorem claim_C6_counterexample :
    2 ≤ (pos_group citsPos2 ("a.com", "organic")).length
    ∧ analyze_position_patterns witEnv citsPos2 = [] :=
  ⟨by decide, by decide⟩

/-- Witness for C6: three top-position records, one group of two, pattern
strength 1 − ((1+2)/2)/10 = 17/20. -/
theorem claim_C6_witness :
    (3 ≤ (top_positions citsPos3).length ∧ pos_qual_keys citsPos3 ≠ [])
    ∧ (analyze_position_patterns witEnv citsPos3).map
        (fun p => (p.pattern_type, p.strength))
      = [("position_consistency", 17/20)] := by
  refine ⟨⟨by decide, by decide⟩, ?_⟩
  rw [claim_C6_position_pattern witEnv citsPos3 (by decide) (by decide)]
  decide

/-! ### Claim C10: duplicate weak_citations gaps are not deduplicated -/

/-- C10: with a tracked query of exactly 2 citations whose mean prominence is
below 0.5, both the count ≤ 2 branch of the no/weak-citation finder and the
low-prominence finder emit a `weak_citations` gap for that query; the final
output holds two distinct gaps with the same `query_text` and `gap_type`. -/
theorem claim_C10_duplicate_weak_gaps :
    ((identify_content_gaps witEnv citsZ ["zzz"] []).filter
        (fun g => g.gap_type == "weak_citations" && g.query_text == "zzz")).length = 2
    ∧ ((identify_content_gaps witEnv citsZ ["zzz"] []).filter
        (fun g => g.gap_type == "weak_citations" && g.query_text == "zzz")).Nodup :=
  ⟨by decide, by decide⟩

/-! ### Generic flatMap helpers -/

theorem filter_flatMap {α β : Type} (l : List α) (f : α → List β) (p : β → Bool) :
    (l.flatMap f).filter p = l.flatMap (fun a => (f a).filter p) := by
  induction l with
  | nil => rfl
  | cons a l ih => simp [List.flatMap_cons, List.filter_append, ih]

theorem flatMap_eq_nil_of {α β : Type} (l : List α) (f : α → List β)
    (h : ∀ t ∈ l, f t = []) : l.flatMap f = [] := by
  induction l with
  | nil => rfl
  | cons a l ih =>
    simp [List.flatMap_cons, h a (List.mem_cons_self a l),
      ih (fun t ht => h t (List.mem_cons_of_mem _ ht))]

theorem flatMap_eq_of_unique_key {α β : Type} [DecidableEq α]
    (l : List α) (f : α → List β) (q : α) (hq : q ∈ l) (hnd : l.Nodup)
    (hoff : ∀ t ∈ l, t ≠ q → f t = []) :
    l.flatMap f = f q := by
  induction l with
  | nil => cases hq
  | cons a l ih =>
    rcases List.nodup_cons.mp hnd with ⟨ha, hnd2⟩
    rcases List.mem_cons.mp hq with rfl | hmem
    · have hnil : l.flatMap f = [] :=
        flatMap_eq_nil_of l f
          (fun t ht => hoff t (List.mem_cons_of_mem _ ht) (fun h => ha (h ▸ ht)))
      simp [List.flatMap_cons, hnil]
    · have ha2 : f a = [] :=
        hoff a (List.mem_cons_self a l) (fun h => ha (h ▸ hmem))
      simp [List.flatMap_cons, ha2,
        ih hmem hnd2 (fun t ht h => hoff t (List.mem_cons_of_mem _ ht) h)]

/-! ### Claim C5: competitor-dominated gaps -/

theorem competitor_gap_for_query (env : AnalyzerEnv) (cits : List Citation)
    (doms : List String) (t : String) :
    ∀ g ∈ competitor_gap_for env cits doms t, g.query_text = t := by
  intro g hg
  simp only [competitor_gap_for] at hg
  split at hg
  · cases hg
  · split at hg
    · simp only [List.mem_singleton] at hg
      subst hg
      rfl
    · cases hg

theorem competitor_share_nonneg (cits : List Citation) (doms : List String)
    (q : String) : 0 ≤ competitor_share cits doms q := by
  unfold competitor_share
  positivity

theorem competitor_share_le_one (cits : List Citation) (doms : List String)
    (q : String) : competitor_share cits doms q ≤ 1 := by
  unfold competitor_share
  apply div_le_one_of_le₀
  · exact_mod_cast List.length_filter_le _ _
  · positivity

/-- C5 (amended): for every query with at least 3 citations whose
competitor-set share is at least 0.6, `_find_competitor_dominated_gaps` emits
exactly one gap for the query, with the documented score formulas,
`priority = low if share > 0.8 else medium`,
`potential_impact = high if share < 0.8 else medium` (the frozen claim wrote
`medium if share > 0.8 else high`, which differs at share exactly 0.8),
`estimated_effort = high`, and difficulty at least 0.6; queries with fewer
than 3 citations are skipped. -/
theorem claim_C5_competitor_gap_fields (env : AnalyzerEnv) (cits : List Citation)
    (doms : List String) (q : String) :
    (3 ≤ (cits.filter (fun c => c.query == q)).length →
      0.6 ≤ competitor_share cits doms q →
      ((find_competitor_dominated_gaps env cits doms).filter
          (fun g => g.query_text == q)).map
        (fun g => (g.gap_type, g.opportunity_score, g.difficulty_score,
            g.priority, g.estimated_effort, g.potential_impact))
        = [("competitor_dominated",
            0.5 - competitor_share cits doms q * 0.2,
            0.6 + competitor_share cits doms q * 0.3,
            if 0.8 < competitor_share cits doms q then "low" else "medium",
            "high",
            if competitor_share cits doms q < 0.8 then "high" else "medium")]
      ∧ 0.6 ≤ 0.6 + competitor_share cits doms q * 0.3)
    ∧ ((cits.filter (fun c => c.query == q)).length < 3 →
        ∀ g ∈ find_competitor_dominated_gaps env cits doms, g.query_text ≠ q) := by
  constructor
  · intro h3 hshare
    have hdoms : ¬ (doms.isEmpty = true) := by
      intro hde
      have hnil : doms = [] := by simpa [List.isEmpty_iff] using hde
      subst hnil
      have hzero : competitor_share cits [] q = 0 := by
        simp [competitor_share]
      rw [hzero] at hshare
      norm_num at hshare
    have hqmem : q ∈ dedupFirst (cits.map (fun c => c.query)) := by
      have hne : cits.filter (fun c => c.query == q) ≠ [] := by
        intro hnil
        rw [hnil] at h3
        simp at h3
      rcases List.exists_mem_of_ne_nil _ hne with ⟨c, hc⟩
      have hc2 := List.mem_filter.mp hc
      refine mem_dedupFirst.mpr (List.mem_map.mpr ⟨c, hc2.1, ?_⟩)
      simpa using hc2.2
    constructor
    · rw [find_competitor_dominated_gaps, if_neg hdoms,
        filter_flatMap,
        flatMap_eq_of_unique_key _ _ q hqmem (nodup_dedupFirst _)
          (fun t _ hne => List.filter_eq_nil_iff.mpr
            (fun g hg => by
              have := competitor_gap_for_query env cits doms t g hg
              simp [this, hne]))]
      simp only [competitor_gap_for]
      rw [if_neg (by omega), if_pos hshare]
      simp
    · have h0 := competitor_share_nonneg cits doms q
      nlinarith
  · intro hlt g hg
    simp only [find_competitor_dominated_gaps] at hg
    split at hg
    · cases hg
    · rcases List.mem_flatMap.mp hg with ⟨t, ht, hgt⟩
      have hqt := competitor_gap_for_query env cits doms t g hgt
      intro heq
      rw [hqt] at heq
      subst heq
      simp only [competitor_gap_for] at hgt
      rw [if_pos hlt] at hgt
      cases hgt

/-- C5 counterexample: five citations of one query, four on the competitor
domain, so the share is exactly 0.8: the claim as stated demands
`potential_impact = high` (share not above 0.8), but the code emits
`medium`. -/
theorem claim_C5_counterexample :
    competitor_share citsShare ["comp.com"] "q" = 0.8
    ∧ ¬ (0.8 < competitor_share citsShare ["comp.com"] "q")
    ∧ (find_competitor_dominated_gaps witEnv citsShare ["comp.com"]).map
        (fun g => g.potential_impact) = ["medium"] :=
  ⟨by decide, by decide, by decide⟩

/-- Witness for C5: three citations all on competitor domains (share 1):
one gap with opportunity 0.3, difficulty 0.9 ≥ 0.6, priority low, effort
high, impact medium. -/
theorem claim_C5_witness :
    (3 ≤ (citsAllComp.filter (fun c => c.query == "qq")).length
      ∧ 0.6 ≤ competitor_share citsAllComp ["comp.com"] "qq")
    ∧ ((find_competitor_dominated_gaps witEnv citsAllComp ["comp.com"]).filter
          (fun g => g.query_text == "qq")).map
        (fun g => (g.gap_type, g.opportunity_score, g.difficulty_score,
            g.priority, g.estimated_effort, g.potential_impact))
      = [("competitor_dominated", 0.3, 0.9, "low", "high", "medium")]
    ∧ 0.6 ≤ 0.6 + competitor_share citsAllComp ["comp.com"] "qq" * 0.3 := by
  have h := (claim_C5_competitor_gap_fields witEnv citsAllComp ["comp.com"] "qq").1
    (by decide) (by decide)
  refine ⟨⟨by decide, by decide⟩, ?_, h.2⟩
  rw [h.1]
  decide

/-! ### Claim C7: the scoring pass -/

/-- C7: in the final scoring pass, every gap gets the high-value boost
(+0.1, clamped at 1.0) when its query text contains a high-value keyword, the
commercial boost (+0.15, clamped at 1.0) with `potential_impact` forced to
high when it contains a commercial keyword, and the returned list is the
adjusted list sorted in descending order of final opportunity score by a
stable sort: it is a permutation of the adjusted list, pairwise descending,
and any two adjusted gaps with equal scores keep their relative order. -/
theorem claim_C7_scoring_pass (gaps : List ContentGap) :
    (score_and_prioritize_gaps gaps).Perm (gaps.map adjust_gap)
    ∧ (∀ g : ContentGap,
        (adjust_gap g).query_text = g.query_text
        ∧ (adjust_gap g).gap_type = g.gap_type
        ∧ (has_high_value_kw g = true → has_commercial_kw g = false →
            (adjust_gap g).opportunity_score = min 1 (g.opportunity_score + 0.1)
            ∧ (adjust_gap g).potential_impact = g.potential_impact)
        ∧ (has_high_value_kw g = false → has_commercial_kw g = true →
            (adjust_gap g).opportunity_score = min 1 (g.opportunity_score + 0.15)
            ∧ (adjust_gap g).potential_impact = "high")
        ∧ (has_high_value_kw g = true → has_commercial_kw g = true →
            (adjust_gap g).opportunity_score
                = min 1 (min 1 (g.opportunity_score + 0.1) + 0.15)
            ∧ (adjust_gap g).potential_impact = "high")
        ∧ (has_high_value_kw g = false → has_commercial_kw g = false →
            (adjust_gap g).opportunity_score = g.opportunity_score
            ∧ (adjust_gap g).potential_impact = g.potential_impact))
    ∧ (score_and_prioritize_gaps gaps).Pairwise gapGE
    ∧ (∀ a b : ContentGap, [a, b].Sublist (gaps.map adjust_gap) →
        a.opportunity_score = b.opportunity_score →
        [a, b].Sublist (score_and_prioritize_gaps gaps)) := by
  refine ⟨?_, ?_, ?_, ?_⟩
  · by_cases h : gaps.isEmpty
    · have : gaps = [] := by simpa [List.isEmpty_iff] using h
      subst this
      simp [score_and_prioritize_gaps]
    · simp only [score_and_prioritize_gaps, if_neg h]
      exact List.perm_insertionSort gapGE _
  · intro g
    refine ⟨rfl, rfl, ?_, ?_, ?_, ?_⟩ <;>
      · intro h1 h2
        constructor <;> simp [adjust_gap, h1, h2]
  · by_cases h : gaps.isEmpty
    · have : gaps = [] := by simpa [List.isEmpty_iff] using h
      subst this
      simp [score_and_prioritize_gaps]
    · simp only [score_and_prioritize_gaps, if_neg h]
      exact List.sorted_insertionSort gapGE _
  · intro a b hsub heq
    by_cases h : gaps.isEmpty
    · have : gaps = [] := by simpa [List.isEmpty_iff] using h
      subst this
      simp at hsub
    · simp only [score_and_prioritize_gaps, if_neg h]
      refine List.sublist_insertionSort ?_ hsub
      simp [List.pairwise_cons, gapGE, heq]

/-- Witness for C7: two keyword-free gaps with equal score keep their order
in the sorted output, which is a permutation of the adjusted list. -/
theorem claim_C7_witness :
    [adjust_gap gapW1, adjust_gap gapW2].Sublist
        (score_and_prioritize_gaps [gapW1, gapW2])
    ∧ (score_and_prioritize_gaps [gapW1, gapW2]).Perm
        ([gapW1, gapW2].map adjust_gap) := by
  refine ⟨?_, (claim_C7_scoring_pass [gapW1, gapW2]).1⟩
  refine (claim_C7_scoring_pass [gapW1, gapW2]).2.2.2 (adjust_gap gapW1)
    (adjust_gap gapW2) ?_ (by decide)
  simp

/-! ### Claim C8: determinism of the gap engine -/

/-- C8: the gap engine's output depends only on the inputs, the process hash
and the behaviour of the clustering routine at the fixed seed 42
(random_state=42): two runs whose process hash agrees and whose clustering
routines agree at seed 42 produce identical ranked output, whatever the
clustering routines do at any other seed and whatever the date is.  In
particular two calls in one process with identical inputs yield identical
results. -/
theorem claim_C8_determinism (e1 e2 : AnalyzerEnv) (cits : List Citation)
    (tracked doms : List String)
    (hh : e1.pyhash = e2.pyhash)
    (hc : ∀ qs k, e1.cluster 42 qs k = e2.cluster 42 qs k) :
    identify_content_gaps e1 cits tracked doms
      = identify_content_gaps e2 cits tracked doms := by
  have hf1 : no_citation_gap_for e1 cits = no_citation_gap_for e2 cits := by
    funext q
    simp [no_citation_gap_for, hh]
  have hf2 : weak_citation_gap_for e1 cits = weak_citation_gap_for e2 cits := by
    funext q
    simp [weak_citation_gap_for, hh]
  have hf3 : competitor_gap_for e1 cits doms = competitor_gap_for e2 cits doms := by
    funext q
    simp [competitor_gap_for, hh]
  have hf5 : question_gaps_for_topic e1 cits (topic_triples tracked)
      = question_gaps_for_topic e2 cits (topic_triples tracked) := by
    funext topic
    simp [question_gaps_for_topic, hh]
  have h1 : find_no_citation_gaps e1 cits tracked
      = find_no_citation_gaps e2 cits tracked := by
    simp [find_no_citation_gaps, hf1]
  have h2 : find_weak_citation_gaps e1 cits = find_weak_citation_gaps e2 cits := by
    simp [find_weak_citation_gaps, hf2]
  have h3 : find_competitor_dominated_gaps e1 cits doms
      = find_competitor_dominated_gaps e2 cits doms := by
    simp [find_competitor_dominated_gaps, hf3]
  have h4 : find_topic_cluster_gaps e1 cits tracked
      = find_topic_cluster_gaps e2 cits tracked := by
    simp [find_topic_cluster_gaps, hh, hc]
  have h5 : find_question_variation_gaps e1 cits tracked
      = find_question_variation_gaps e2 cits tracked := by
    simp [find_question_variation_gaps, hf5]
  simp only [identify_content_gaps, h1, h2, h3, h4, h5]

/-- Witness for C8: two environments agreeing on the hash and at seed 42 but
differing at other seeds and on the date give identical output. -/
theorem claim_C8_witness :
    identify_content_gaps envA citsOther trackedTen []
      = identify_content_gaps envB citsOther trackedTen [] :=
  claim_C8_determinism envA envB citsOther trackedTen []
    rfl (fun qs k => by simp [envA, envB])

/-! ### Claim C2: sub-scan failure isolation -/

/-- C2: a failure of the library clustering routine (the modelled failure
point of the engines' try/except blocks) never escapes
`identify_content_gaps` or `analyze_citation_patterns`: the failing sub-scan
contributes zero gaps/patterns and every sibling sub-scan still contributes
its own output. -/
theorem claim_C2_subscan_isolation (env : AnalyzerEnv) (cits : List Citation)
    (tracked doms : List String) (m1 m2 : String)
    (h1 : env.cluster 42 tracked (min 5 (tracked.length / 4)) = Except.error m1)
    (h2 : env.cluster 42 (cits.map (fun c => c.query)) (min 5 (cits.length / 3))
      = Except.error m2) :
    find_topic_cluster_gaps env cits tracked = []
    ∧ analyze_query_similarity_patterns env cits = []
    ∧ identify_content_gaps env cits tracked doms
        = (if cits.isEmpty || tracked.isEmpty then [] else
            score_and_prioritize_gaps
              (find_no_citation_gaps env cits tracked
                ++ find_weak_citation_gaps env cits
                ++ find_competitor_dominated_gaps env cits doms
                ++ find_question_variation_gaps env cits tracked))
    ∧ analyze_citation_patterns env cits
        = (if cits.isEmpty then [] else
            analyze_domain_patterns env cits
              ++ analyze_content_type_patterns env cits
              ++ analyze_position_patterns env cits
              ++ analyze_temporal_patterns env cits
              ++ analyze_engine_patterns env cits
              ++ analyze_content_feature_patterns env cits) := by
  have ht : find_topic_cluster_gaps env cits tracked = [] := by
    simp only [find_topic_cluster_gaps]
    split
    · rfl
    · split
      · rfl
      · rw [h1]
  have hq : analyze_query_similarity_patterns env cits = [] := by
    simp only [analyze_query_similarity_patterns]
    split
    · rfl
    · split
      · rfl
      · rw [h2]
  refine ⟨ht, hq, ?_, ?_⟩
  · simp only [identify_content_gaps, ht, List.append_nil]
  · simp only [analyze_citation_patterns, hq, List.append_nil]

/-- Witness for C2: a routine that always fails, ten tracked queries (so the
clustering gate is really reached), and one citation: the cluster scan
contributes nothing while the sibling finders still produce gaps. -/
theorem claim_C2_witness :
    find_topic_cluster_gaps witEnv citsOther trackedTen = []
    ∧ analyze_query_similarity_patterns witEnv citsOther = []
    ∧ identify_content_gaps witEnv citsOther trackedTen [] ≠ [] := by
  have h := claim_C2_subscan_isolation witEnv citsOther trackedTen []
    "clustering unavailable" "clustering unavailable" rfl rfl
  refine ⟨h.1, h.2.1, ?_⟩
  rw [h.2.2.1]
  decide

/-! ### Claim C4: pattern strength bounds -/

theorem mean_prominence_bounds {cits : List Citation}
    (hinv : ∀ c ∈ cits, 0 ≤ c.prominence_score ∧ c.prominence_score ≤ 1)
    {l : List Citation} (hsub : ∀ c ∈ l, c ∈ cits) (hne : l ≠ []) :
    0 ≤ listMean (l.map (fun c => c.prominence_score))
    ∧ listMean (l.map (fun c => c.prominence_score)) ≤ 1 := by
  constructor
  · apply listMean_nonneg
    intro x hx
    rcases List.mem_map.mp hx with ⟨c, hc, rfl⟩
    exact (hinv c (hsub c hc)).1
  · apply listMean_le (by simpa using hne)
    intro x hx
    rcases List.mem_map.mp hx with ⟨c, hc, rfl⟩
    exact (hinv c (hsub c hc)).2

theorem analyze_domain_patterns_strength (env : AnalyzerEnv) (cits : List Citation)
    (hinv : ∀ c ∈ cits, 0 ≤ c.prominence_score ∧ c.prominence_score ≤ 1) :
    ∀ p ∈ analyze_domain_patterns env cits, 0 ≤ p.strength ∧ p.strength ≤ 1 := by
  intro p hp
  simp only [analyze_domain_patterns, List.mem_append] at hp
  rcases hp with hp | hp
  · by_cases h1 : (high_freq_domains cits).isEmpty
    · simp [h1] at hp
    · rw [if_neg (by simpa using h1)] at hp
      simp only [List.mem_singleton] at hp
      subst hp
      exact ⟨le_min (by norm_num) (by positivity), min_le_left _ _⟩
  · by_cases h2 : (high_prominence_domains cits).isEmpty
    · simp [h2] at hp
    · rw [if_neg (by simpa using h2)] at hp
      simp only [List.mem_singleton] at hp
      subst hp
      have hne : high_prominence_domains cits ≠ [] := by simpa using h2
      have hbounds : ∀ x ∈ (high_prominence_domains cits).map (fun d =>
          listMean ((domain_records cits d).map (fun c => c.prominence_score))),
          0 ≤ x ∧ x ≤ 1 := by
        intro x hx
        rcases List.mem_map.mp hx with ⟨d, hd, rfl⟩
        have hd2 := List.mem_filter.mp hd
        have hcond : 2 ≤ (domain_records cits d).length := by
          have := hd2.2
          simp only [decide_eq_true_eq] at this
          exact this.1
        refine mean_prominence_bounds hinv
          (fun c hc => (List.mem_filter.mp hc).1) ?_
        exact List.ne_nil_of_length_pos (by omega)
      exact ⟨listMean_nonneg (fun x hx => (hbounds x hx).1),
        listMean_le (by simpa using hne) (fun x hx => (hbounds x hx).2)⟩

theorem analyze_content_type_patterns_strength (env : AnalyzerEnv)
    (cits : List Citation)
    (hinv : ∀ c ∈ cits, 0 ≤ c.prominence_score ∧ c.prominence_score ≤ 1) :
    ∀ p ∈ analyze_content_type_patterns env cits,
      0 ≤ p.strength ∧ p.strength ≤ 1 := by
  intro p hp
  simp only [analyze_content_type_patterns] at hp
  by_cases h1 : (high_performing_types cits).isEmpty
  · simp [h1] at hp
  · rw [if_neg (by simpa using h1)] at hp
    simp only [List.mem_singleton] at hp
    subst hp
    have hne : high_performing_types cits ≠ [] := by simpa using h1
    have hbounds : ∀ x ∈ (high_performing_types cits).map (fun t =>
        listMean ((type_records cits t).map (fun c => c.prominence_score))),
        0 ≤ x ∧ x ≤ 1 := by
      intro x hx
      rcases List.mem_map.mp hx with ⟨t, ht, rfl⟩
      have ht2 := List.mem_filter.mp ht
      have hcond : 3 ≤ (type_records cits t).length := by
        have := ht2.2
        simp only [decide_eq_true_eq] at this
        exact this.1
      refine mean_prominence_bounds hinv
        (fun c hc => (List.mem_filter.mp hc).1) ?_
      exact List.ne_nil_of_length_pos (by omega)
    exact ⟨listMean_nonneg (fun x hx => (hbounds x hx).1),
      listMean_le (by simpa using hne) (fun x hx => (hbounds x hx).2)⟩

theorem analyze_position_patterns_strength (env : AnalyzerEnv)
    (cits : List Citation) (hpos : ∀ c ∈ cits, 0 ≤ c.position) :
    ∀ p ∈ analyze_position_patterns env cits,
      0 ≤ p.strength ∧ p.strength ≤ 1 := by
  intro p hp
  simp only [analyze_position_patterns] at hp
  split at hp
  · cases hp
  · by_cases hq : (pos_qual_keys cits).isEmpty
    · simp [hq] at hp
    · rw [if_neg (by simpa using hq)] at hp
      simp only [List.mem_singleton] at hp
      subst hp
      have hne : pos_qual_keys cits ≠ [] := by simpa using hq
      have hbounds : ∀ x ∈ pos_group_means cits, 0 ≤ x ∧ x ≤ 3 := by
        intro x hx
        rcases List.mem_map.mp hx with ⟨k, hk, rfl⟩
        have hk2 := List.mem_filter.mp hk
        have hcount : 2 ≤ (pos_group cits k).length := by
          have := hk2.2
          simpa using this
        have hgne : (pos_group cits k) ≠ [] := List.ne_nil_of_length_pos (by omega)
        constructor
        · apply listMean_nonneg
          intro y hy
          rcases List.mem_map.mp hy with ⟨c, hc, rfl⟩
          exact hpos c (List.mem_filter.mp ((List.mem_filter.mp hc).1)).1
        · apply listMean_le (by simpa using hgne)
          intro y hy
          rcases List.mem_map.mp hy with ⟨c, hc, rfl⟩
          have hc2 := List.mem_filter.mp ((List.mem_filter.mp hc).1)
          simpa using hc2.2
      have hM0 : 0 ≤ listMean (pos_group_means cits) :=
        listMean_nonneg (fun x hx => (hbounds x hx).1)
      have hM3 : listMean (pos_group_means cits) ≤ 3 := by
        apply listMean_le ?_ (fun x hx => (hbounds x hx).2)
        simpa [pos_group_means] using hne
      constructor
      · simp only [CitationPattern.mk.injEq]
        linarith
      · linarith

theorem analyze_temporal_patterns_strength (env : AnalyzerEnv)
    (cits : List Citation) :
    ∀ p ∈ analyze_temporal_patterns env cits,
      0 ≤ p.strength ∧ p.strength ≤ 1 := by
  intro p hp
  simp only [analyze_temporal_patterns, List.mem_append] at hp
  rcases hp with hp | hp
  · split at hp
    · cases hp
    · split at hp
      · cases hp
      · simp only [List.mem_singleton] at hp
        subst hp
        exact ⟨le_min (by norm_num) (by positivity), min_le_left _ _⟩
  · by_cases hw : (weekday_names_present cits).isEmpty
    · simp [hw] at hp
    · rw [if_neg (by simpa using hw)] at hp
      split at hp
      · simp only [List.mem_singleton] at hp
        subst hp
        have hne : weekday_counts cits ≠ [] := by
          have : weekday_names_present cits ≠ [] := by simpa using hw
          simpa [weekday_counts] using this
        rcases List.exists_mem_of_ne_nil _ hne with ⟨x, hx⟩
        have hminmax : listMinNat (weekday_counts cits)
            ≤ listMaxNat (weekday_counts cits) :=
          le_trans (listMinNat_le hx) (le_listMaxNat hx)
        constructor
        · refine le_min (by norm_num) (div_nonneg ?_ ?_)
          · rw [sub_nonneg]
            exact_mod_cast hminmax
          · apply listMean_nonneg
            intro y hy
            rcases List.mem_map.mp hy with ⟨n, _, h⟩
            rw [← h]
            exact Nat.cast_nonneg n
        · exact min_le_left _ _
      · cases hp

theorem analyze_engine_patterns_strength (env : AnalyzerEnv)
    (cits : List Citation) :
    ∀ p ∈ analyze_engine_patterns env cits,
      0 ≤ p.strength ∧ p.strength ≤ 1 := by
  intro p hp
  simp only [analyze_engine_patterns] at hp
  rcases List.mem_flatMap.mp hp with ⟨e, he, hpe⟩
  split at hpe
  · simp only [List.mem_singleton] at hpe
    subst hpe
    have hene : engine_records cits e ≠ [] := by
      have he2 : e ∈ cits.map (fun c => c.engine) := mem_dedupFirst.mp he
      rcases List.mem_map.mp he2 with ⟨c, hc, rfl⟩
      intro hnil
      have : c ∈ engine_records cits c.engine :=
        List.mem_filter.mpr ⟨hc, by simp⟩
      rw [hnil] at this
      cases this
    have hlen : (0 : ℚ) < (engine_records cits e).length := by
      exact_mod_cast List.length_pos.mpr hene
    constructor
    · positivity
    · rw [div_le_one hlen]
      have : dominant_type_count cits e ≤ (engine_records cits e).length := by
        apply listMaxNat_le
        intro x hx
        rcases List.mem_map.mp hx with ⟨t, _, rfl⟩
        exact List.length_filter_le _ _
      exact_mod_cast this
  · cases hpe

theorem analyze_content_feature_patterns_strength (env : AnalyzerEnv)
    (cits : List Citation) :
    ∀ p ∈ analyze_content_feature_patterns env cits,
      0 ≤ p.strength ∧ p.strength ≤ 1 := by
  intro p hp
  simp only [analyze_content_feature_patterns] at hp
  split at hp
  · cases hp
  · by_cases hf : (frequent_features cits).isEmpty
    · simp [hf] at hp
    · rw [if_neg (by simpa using hf)] at hp
      simp only [List.mem_singleton] at hp
      subst hp
      constructor
      · positivity
      · apply div_le_one_of_le₀
        · have h1 : (frequent_features cits).length
              ≤ (dedupFirst (metadata_tokens cits)).length :=
            List.length_filter_le _ _
          exact_mod_cast le_trans h1 (le_max_left _ _)
        · positivity

theorem analyze_query_similarity_patterns_strength (env : AnalyzerEnv)
    (cits : List Citation) :
    ∀ p ∈ analyze_query_similarity_patterns env cits,
      0 ≤ p.strength ∧ p.strength ≤ 1 := by
  intro p hp
  simp only [analyze_query_similarity_patterns] at hp
  split at hp
  case isTrue => cases hp
  case isFalse hlen10 =>
    split at hp
    · cases hp
    · split at hp
      · cases hp
      · split at hp
        · cases hp
        · rcases List.mem_flatMap.mp hp with ⟨cid, _, hpc⟩
          split at hpc
          · cases hpc
          · simp only [List.mem_singleton] at hpc
            subst hpc
            have hpos : (0 : ℚ) < cits.length := by
              exact_mod_cast (show 0 < cits.length by omega)
            constructor
            · positivity
            · rw [div_le_one hpos]
              refine Nat.cast_le.mpr (le_trans (List.length_filterMap_le _ _) ?_)
              rw [List.length_zip]
              exact min_le_left _ _

/-- C4: for every citation list whose records satisfy the input invariant
(prominence in [0,1], position nonnegative), every pattern emitted by
`analyze_citation_patterns` has strength in [0,1]. -/
theorem claim_C4_strength_bounds (env : AnalyzerEnv) (cits : List Citation)
    (hinv : ∀ c ∈ cits, 0 ≤ c.prominence_score ∧ c.prominence_score ≤ 1
      ∧ 0 ≤ c.position) :
    ∀ p ∈ analyze_citation_patterns env cits,
      0 ≤ p.strength ∧ p.strength ≤ 1 := by
  have hprom : ∀ c ∈ cits, 0 ≤ c.prominence_score ∧ c.prominence_score ≤ 1 :=
    fun c hc => ⟨(hinv c hc).1, (hinv c hc).2.1⟩
  have hpos : ∀ c ∈ cits, 0 ≤ c.position := fun c hc => (hinv c hc).2.2
  intro p hp
  simp only [analyze_citation_patterns] at hp
  split at hp
  · cases hp
  · simp only [List.mem_append] at hp
    rcases hp with ((((((hp | hp) | hp) | hp) | hp) | hp) | hp)
    · exact analyze_domain_patterns_strength env cits hprom p hp
    · exact analyze_content_type_patterns_strength env cits hprom p hp
    · exact analyze_position_patterns_strength env cits hpos p hp
    · exact analyze_temporal_patterns_strength env cits p hp
    · exact analyze_engine_patterns_strength env cits p hp
    · exact analyze_content_feature_patterns_strength env cits p hp
    · exact analyze_query_similarity_patterns_strength env cits p hp

/-- Witness for C4: the invariant holds of `citsX` and every emitted pattern
has strength in [0,1]. -/
theorem claim_C4_witness :
    (∀ c ∈ citsX, 0 ≤ c.prominence_score ∧ c.prominence_score ≤ 1
      ∧ 0 ≤ c.position)
    ∧ ∀ p ∈ analyze_citation_patterns witEnv citsX,
        0 ≤ p.strength ∧ p.strength ≤ 1 :=
  ⟨by decide, claim_C4_strength_bounds witEnv citsX (by decide)⟩

/-! ### Claim C3: final score bounds and priority bands -/

theorem no_citation_gap_for_spec (env : AnalyzerEnv) (cits : List Citation)
    (q : String) :
    ∀ g ∈ no_citation_gap_for env cits q,
      (g.gap_type = "no_citations" ∨ g.gap_type = "weak_citations")
      ∧ 0 ≤ g.opportunity_score ∧ g.opportunity_score ≤ 11/10 := by
  intro g hg
  simp only [no_citation_gap_for] at hg
  split at hg
  · simp only [List.mem_singleton] at hg
    subst hg
    exact ⟨Or.inl rfl, by norm_num, by norm_num⟩
  · split at hg
    · simp only [List.mem_singleton] at hg
      subst hg
      exact ⟨Or.inr rfl, by norm_num, by norm_num⟩
    · cases hg

theorem weak_citation_gap_for_spec (env : AnalyzerEnv) (cits : List Citation)
    (q : String) (hprom : ∀ c ∈ cits, 0 ≤ c.prominence_score) :
    ∀ g ∈ weak_citation_gap_for env cits q,
      g.gap_type = "weak_citations"
      ∧ 0 ≤ g.opportunity_score ∧ g.opportunity_score ≤ 11/10 := by
  intro g hg
  simp only [weak_citation_gap_for] at hg
  split at hg
  case isTrue hcond =>
    simp only [List.mem_singleton] at hg
    subst hg
    have hm0 : 0 ≤ mean_prominence cits q := by
      apply listMean_nonneg
      intro x hx
      rcases List.mem_map.mp hx with ⟨c, hc, rfl⟩
      exact hprom c (List.mem_filter.mp hc).1
    have hm5 : mean_prominence cits q < 0.5 := hcond.1
    refine ⟨rfl, ?_, ?_⟩
    · dsimp only
      linarith
    · dsimp only
      linarith
  case isFalse => cases hg

theorem competitor_gap_for_spec (env : AnalyzerEnv) (cits : List Citation)
    (doms : List String) (q : String) :
    ∀ g ∈ competitor_gap_for env cits doms q,
      g.gap_type = "competitor_dominated"
      ∧ 0 ≤ g.opportunity_score ∧ g.opportunity_score ≤ 11/10 := by
  intro g hg
  simp only [competitor_gap_for] at hg
  split at hg
  · cases hg
  · split at hg
    · simp only [List.mem_singleton] at hg
      subst hg
      have h0 := competitor_share_nonneg cits doms q
      have h1 := competitor_share_le_one cits doms q
      refine ⟨rfl, ?_, ?_⟩ <;> dsimp only <;> linarith
    · cases hg

theorem find_topic_cluster_gaps_spec (env : AnalyzerEnv) (cits : List Citation)
    (tracked : List String) :
    ∀ g ∈ find_topic_cluster_gaps env cits tracked,
      g.gap_type = "topic_cluster_gap"
      ∧ 0 ≤ g.opportunity_score ∧ g.opportunity_score ≤ 11/10 := by
  intro g hg
  simp only [find_topic_cluster_gaps] at hg
  split at hg
  · cases hg
  · split at hg
    · cases hg
    · split at hg
      · cases hg
      · split at hg
        · cases hg
        · rcases List.mem_flatMap.mp hg with ⟨cid, _, hgc⟩
          split at hgc
          · cases hgc
          · rcases List.mem_flatMap.mp hgc with ⟨pr, _, hgp⟩
            split at hgp
            · simp only [List.mem_singleton] at hgp
              subst hgp
              exact ⟨rfl, by norm_num, by norm_num⟩
            · cases hgp

theorem question_score_le (n : ℕ) :
    (0.5 : ℚ) + ((n ⊓ 10 : ℕ) : ℚ) * 0.03 ≤ 11/10 := by
  have h : ((n ⊓ 10 : ℕ) : ℚ) ≤ 10 := by exact_mod_cast min_le_right n 10
  linarith

theorem question_gaps_for_topic_spec (env : AnalyzerEnv) (cits : List Citation)
    (triples : List (String × String × String)) (topic : String) :
    ∀ g ∈ question_gaps_for_topic env cits triples topic,
      g.gap_type = "question_variation"
      ∧ 0 ≤ g.opportunity_score ∧ g.opportunity_score ≤ 11/10 := by
  intro g hg
  simp only [question_gaps_for_topic] at hg
  split at hg
  · rcases List.mem_map.mp hg with ⟨missing, _, rfl⟩
    refine ⟨rfl, ?_, ?_⟩ <;> dsimp only
    · positivity
    · exact question_score_le _
  · cases hg

theorem adjust_gap_score_bounds {g : ContentGap}
    (h0 : 0 ≤ g.opportunity_score) (h1 : g.opportunity_score ≤ 11/10) :
    0 ≤ (adjust_gap g).opportunity_score
    ∧ (adjust_gap g).opportunity_score ≤ 11/10 := by
  simp only [adjust_gap]
  by_cases hv : has_high_value_kw g <;> by_cases hc : has_commercial_kw g <;>
    simp only [hv, hc, if_true, if_false, ite_true, ite_false]
  · constructor
    · exact le_min (by norm_num) (by positivity)
    · exact le_trans (min_le_left _ _) (by norm_num)
  · constructor
    · exact le_min (by norm_num) (by positivity)
    · exact le_trans (min_le_left _ _) (by norm_num)
  · constructor
    · exact le_min (by norm_num) (by positivity)
    · exact le_trans (min_le_left _ _) (by norm_num)
  · exact ⟨h0, h1⟩

theorem adjust_gap_priority (g : ContentGap) :
    (adjust_gap g).priority
      = (if 0.8 ≤ (adjust_gap g).opportunity_score then "high"
         else if 0.5 ≤ (adjust_gap g).opportunity_score then "medium"
         else "low") := rfl

/-- C3 (amended): for every input whose records have nonnegative prominence,
every gap returned by `identify_content_gaps` has final opportunity score in
[0, 1.1] and priority matching the final score bands (≥ 0.8 high, ≥ 0.5
medium, else low).  The frozen claim's bound [0, 1] fails: the low-prominence
score `0.6 + (0.5 − mean)` reaches 1.1 and is clamped only when a keyword
boost applies. -/
theorem claim_C3_score_bounds (env : AnalyzerEnv) (cits : List Citation)
    (tracked doms : List String)
    (hprom : ∀ c ∈ cits, 0 ≤ c.prominence_score) :
    ∀ g ∈ identify_content_gaps env cits tracked doms,
      0 ≤ g.opportunity_score ∧ g.opportunity_score ≤ 11/10
      ∧ g.priority = (if 0.8 ≤ g.opportunity_score then "high"
          else if 0.5 ≤ g.opportunity_score then "medium" else "low") := by
  intro g hg
  simp only [identify_content_gaps] at hg
  split at hg
  · cases hg
  · simp only [score_and_prioritize_gaps] at hg
    split at hg
    case isTrue hemp =>
      rw [List.isEmpty_iff.mp hemp] at hg
      cases hg
    case isFalse =>
      rw [List.mem_insertionSort] at hg
      rcases List.mem_map.mp hg with ⟨g0, hg0, rfl⟩
      have hb : 0 ≤ g0.opportunity_score ∧ g0.opportunity_score ≤ 11/10 := by
        simp only [List.mem_append] at hg0
        rcases hg0 with ((((h | h) | h) | h) | h)
        · rcases List.mem_flatMap.mp h with ⟨t, _, ht⟩
          exact (no_citation_gap_for_spec env cits t g0 ht).2
        · rcases List.mem_flatMap.mp h with ⟨t, _, ht⟩
          exact (weak_citation_gap_for_spec env cits t hprom g0 ht).2
        · rw [find_competitor_dominated_gaps] at h
          split at h
          · cases h
          · rcases List.mem_flatMap.mp h with ⟨t, _, ht⟩
            exact (competitor_gap_for_spec env cits doms t g0 ht).2
        · exact (find_topic_cluster_gaps_spec env cits tracked g0 h).2
        · rcases List.mem_flatMap.mp h with ⟨t, _, ht⟩
          exact (question_gaps_for_topic_spec env cits (topic_triples tracked) t g0 ht).2
      exact ⟨(adjust_gap_score_bounds hb.1 hb.2).1,
        (adjust_gap_score_bounds hb.1 hb.2).2, adjust_gap_priority g0⟩

/-- C3 counterexample: two zero-prominence citations of a keyword-free query:
the low-prominence gap's final opportunity score is 1.1 > 1, so the frozen
bound [0,1] is false. -/
theorem claim_C3_counterexample :
    (identify_content_gaps witEnv citsZ ["zzz"] []).any
      (fun g => decide (1 < g.opportunity_score)) = true := by decide

/-- Witness for C3: the nonnegative-prominence invariant holds of `citsZ` and
every returned gap satisfies the amended bound and the priority bands. -/
theorem claim_C3_witness :
    (∀ c ∈ citsZ, 0 ≤ c.prominence_score)
    ∧ ∀ g ∈ identify_content_gaps witEnv citsZ ["zzz"] [],
        0 ≤ g.opportunity_score ∧ g.opportunity_score ≤ 11/10
        ∧ g.priority = (if 0.8 ≤ g.opportunity_score then "high"
            else if 0.5 ≤ g.opportunity_score then "medium" else "low") :=
  ⟨by decide, claim_C3_score_bounds witEnv citsZ ["zzz"] [] (by decide)⟩

/-! ### Claim C1: no-citation gaps per tracked query -/

theorem no_citation_gap_for_query (env : AnalyzerEnv) (cits : List Citation)
    (t : String) : ∀ g ∈ no_citation_gap_for env cits t, g.query_text = t := by
  intro g hg
  simp only [no_citation_gap_for] at hg
  split at hg
  · simp only [List.mem_singleton] at hg
    subst hg
    rfl
  · split at hg
    · simp only [List.mem_singleton] at hg
      subst hg
      rfl
    · cases hg

theorem no_citation_gap_for_fields (env : AnalyzerEnv) (cits : List Citation)
    (t : String) :
    ∀ g ∈ no_citation_gap_for env cits t, g.gap_type = "no_citations" →
      g.opportunity_score = 0.8 ∧ g.difficulty_score = 0.2
        ∧ g.priority = "high" := by
  intro g hg htype
  simp only [no_citation_gap_for] at hg
  split at hg
  · simp only [List.mem_singleton] at hg
    subst hg
    exact ⟨rfl, rfl, rfl⟩
  · split at hg
    · simp only [List.mem_singleton] at hg
      subst hg
      simp at htype
    · cases hg

theorem weak_citation_gap_for_type (env : AnalyzerEnv) (cits : List Citation)
    (q : String) :
    ∀ g ∈ weak_citation_gap_for env cits q, g.gap_type = "weak_citations" := by
  intro g hg
  simp only [weak_citation_gap_for] at hg
  split at hg
  · simp only [List.mem_singleton] at hg
    subst hg
    rfl
  · cases hg

theorem countP_comp_adjust (gaps : List ContentGap) (p : ContentGap → Bool)
    (hp : ∀ g, p (adjust_gap g) = p g) :
    gaps.countP (p ∘ adjust_gap) = gaps.countP p := by
  induction gaps with
  | nil => rfl
  | cons g gs ih =>
    simp only [List.countP_cons, ih, Function.comp_apply, hp]

theorem countP_adjust (gaps : List ContentGap) (p : ContentGap → Bool)
    (hp : ∀ g, p (adjust_gap g) = p g) :
    (score_and_prioritize_gaps gaps).countP p = gaps.countP p := by
  simp only [score_and_prioritize_gaps]
  split
  · rfl
  · rw [(List.perm_insertionSort gapGE _).countP_eq, List.countP_map]
    exact countP_comp_adjust gaps p hp

theorem countP_find_no_citation (env : AnalyzerEnv) (cits : List Citation)
    (tracked : List String) (q : String)
    (hzero : query_citation_count cits q = 0) :
    (find_no_citation_gaps env cits tracked).countP
        (fun g => g.gap_type == "no_citations" && g.query_text == q)
      = tracked.count q := by
  simp only [find_no_citation_gaps]
  induction tracked with
  | nil => rfl
  | cons t ts ih =>
    rw [List.flatMap_cons, List.countP_append, ih]
    by_cases htq : t = q
    · subst htq
      have h1 : (no_citation_gap_for env cits t).countP
          (fun g => g.gap_type == "no_citations" && g.query_text == t) = 1 := by
        simp [no_citation_gap_for, hzero]
      rw [h1, List.count_cons_self]
      omega
    · have h0 : (no_citation_gap_for env cits t).countP
          (fun g => g.gap_type == "no_citations" && g.query_text == q) = 0 := by
        apply List.countP_eq_zero.mpr
        intro g hg
        have hq := no_citation_gap_for_query env cits t g hg
        simp [hq, htq]
      rw [h0, List.count_cons_of_ne (fun h => htq h.symm)]
      omega

theorem adjust_gap_score_ge {g : ContentGap} (h : 0.8 ≤ g.opportunity_score) :
    (0.8 : ℚ) ≤ (adjust_gap g).opportunity_score := by
  simp only [adjust_gap]
  by_cases hv : has_high_value_kw g <;> by_cases hc : has_commercial_kw g <;>
    simp only [hv, hc, Bool.false_eq_true, ite_true, ite_false, if_true, if_false]
  · have hA : (0.8 : ℚ) ≤ min 1 (g.opportunity_score + 0.1) :=
      le_min (by norm_num) (by linarith)
    exact le_min (by norm_num) (by linarith)
  · exact le_min (by norm_num) (by linarith)
  · exact le_min (by norm_num) (by linarith)
  · exact h

/-- C1 (amended): for every non-empty citation list, every tracked-query list
and every query q with zero matching citations, `identify_content_gaps`
returns exactly one `no_citations` gap per occurrence of q in the tracked
list, each with final score at least 0.8 and priority high; such a gap is
built with opportunity_score = 0.8 (pre-boost), difficulty_score = 0.2 and
priority high.  The frozen claim's premise "empty citation list" is wrong:
with empty citations the guard returns [] before any finder runs. -/
theorem claim_C1_no_citation_gaps (env : AnalyzerEnv) (cits : List Citation)
    (tracked doms : List String) (q : String)
    (hne : cits ≠ []) (hzero : query_citation_count cits q = 0) :
    ((identify_content_gaps env cits tracked doms).countP
        (fun g => g.gap_type == "no_citations" && g.query_text == q))
      = tracked.count q
    ∧ (∀ g ∈ identify_content_gaps env cits tracked doms,
        g.gap_type = "no_citations" → g.query_text = q →
          0.8 ≤ g.opportunity_score ∧ g.priority = "high")
    ∧ (∀ g ∈ find_no_citation_gaps env cits tracked,
        g.gap_type = "no_citations" →
          g.opportunity_score = 0.8 ∧ g.difficulty_score = 0.2
            ∧ g.priority = "high") := by
  refine ⟨?_, ?_, ?_⟩
  · simp only [identify_content_gaps]
    split
    case isTrue hguard =>
      have hc : cits.isEmpty = false := by
        cases h1 : cits.isEmpty
        · rfl
        · exact absurd (List.isEmpty_iff.mp h1) hne
      rw [hc, Bool.false_or] at hguard
      rw [List.isEmpty_iff.mp hguard]
      rfl
    case isFalse =>
      rw [countP_adjust _
        (fun g => g.gap_type == "no_citations" && g.query_text == q)
        (fun g => rfl)]
      simp only [List.countP_append]
      rw [countP_find_no_citation env cits tracked q hzero]
      have hw : (find_weak_citation_gaps env cits).countP
          (fun g => g.gap_type == "no_citations" && g.query_text == q) = 0 := by
        apply List.countP_eq_zero.mpr
        intro g hg
        rcases List.mem_flatMap.mp hg with ⟨t, _, ht⟩
        have htype := weak_citation_gap_for_type env cits t g ht
        simp [htype]
      have hcomp : (find_competitor_dominated_gaps env cits doms).countP
          (fun g => g.gap_type == "no_citations" && g.query_text == q) = 0 := by
        apply List.countP_eq_zero.mpr
        intro g hg
        rw [find_competitor_dominated_gaps] at hg
        split at hg
        · cases hg
        · rcases List.mem_flatMap.mp hg with ⟨t, _, ht⟩
          have htype := (competitor_gap_for_spec env cits doms t g ht).1
          simp [htype]
      have htc : (find_topic_cluster_gaps env cits tracked).countP
          (fun g => g.gap_type == "no_citations" && g.query_text == q) = 0 := by
        apply List.countP_eq_zero.mpr
        intro g hg
        have htype := (find_topic_cluster_gaps_spec env cits tracked g hg).1
        simp [htype]
      have hqv : (find_question_variation_gaps env cits tracked).countP
          (fun g => g.gap_type == "no_citations" && g.query_text == q) = 0 := by
        apply List.countP_eq_zero.mpr
        intro g hg
        rcases List.mem_flatMap.mp hg with ⟨t, _, ht⟩
        have htype :=
          (question_gaps_for_topic_spec env cits (topic_triples tracked) t g ht).1
        simp [htype]
      rw [hw, hcomp, htc, hqv]
      omega
  · intro g hg htype hquery
    simp only [identify_content_gaps] at hg
    split at hg
    · cases hg
    · simp only [score_and_prioritize_gaps] at hg
      split at hg
      case isTrue hemp =>
        rw [List.isEmpty_iff.mp hemp] at hg
        cases hg
      case isFalse =>
        rw [List.mem_insertionSort] at hg
        rcases List.mem_map.mp hg with ⟨g0, hg0, rfl⟩
        have htype0 : g0.gap_type = "no_citations" := htype
        have hsc : g0.opportunity_score = 0.8 := by
          simp only [List.mem_append] at hg0
          rcases hg0 with ((((h | h) | h) | h) | h)
          · rcases List.mem_flatMap.mp h with ⟨t, _, ht⟩
            exact (no_citation_gap_for_fields env cits t g0 ht htype0).1
          · rcases List.mem_flatMap.mp h with ⟨t, _, ht⟩
            have := weak_citation_gap_for_type env cits t g0 ht
            rw [this] at htype0
            simp at htype0
          · rw [find_competitor_dominated_gaps] at h
            split at h
            · cases h
            · rcases List.mem_flatMap.mp h with ⟨t, _, ht⟩
              have := (competitor_gap_for_spec env cits doms t g0 ht).1
              rw [this] at htype0
              simp at htype0
          · have := (find_topic_cluster_gaps_spec env cits tracked g0 h).1
            rw [this] at htype0
            simp at htype0
          · rcases List.mem_flatMap.mp h with ⟨t, _, ht⟩
            have := (question_gaps_for_topic_spec env cits
              (topic_triples tracked) t g0 ht).1
            rw [this] at htype0
            simp at htype0
        have hge : (0.8 : ℚ) ≤ (adjust_gap g0).opportunity_score :=
          adjust_gap_score_ge (le_of_eq hsc.symm)
        refine ⟨hge, ?_⟩
        rw [adjust_gap_priority g0, if_pos hge]
  · intro g hg htype
    rcases List.mem_flatMap.mp hg with ⟨t, _, ht⟩
    exact no_citation_gap_for_fields env cits t g ht htype

/-- C1 counterexample: with an empty citation list and the non-empty tracked
list ["alpha"], `identify_content_gaps` returns [], not one `no_citations`
gap for "alpha". -/
theorem claim_C1_counterexample :
    (["alpha"] : List String) ≠ []
    ∧ identify_content_gaps witEnv [] ["alpha"] [] = [] :=
  ⟨by decide, by decide⟩

/-- Witness for C1: one citation of an unrelated query, the query "alpha"
tracked twice: exactly two `no_citations` gaps for "alpha". -/
theorem claim_C1_witness :
    (citsOther ≠ [] ∧ query_citation_count citsOther "alpha" = 0)
    ∧ ((identify_content_gaps witEnv citsOther ["alpha", "beta", "alpha"] []).countP
        (fun g => g.gap_type == "no_citations" && g.query_text == "alpha"))
      = (["alpha", "beta", "alpha"] : List String).count "alpha" := by
  refine ⟨⟨by decide, by decide⟩, ?_⟩
  exact (claim_C1_no_citation_gaps witEnv citsOther ["alpha", "beta", "alpha"] []
    "alpha" (by decide) (by decide)).1
